import Mathlib

/-!
Verification development for the `scaffold-nuxt-4` additive scaffolder
(`src/scaffold.mjs`, revision 1.0.1, with the lock-acquisition variants of the
earlier revisions kept for comparison).

The classification/execution engine of `scaffold.mjs` is embedded shallowly:
pure JS string predicates become Lean functions on `String`, the per-file loop
body (lines 414-463) becomes `stepOf`, the whole loop becomes `runFiles`, and
the filesystem is abstracted by the `existsInTarget` / `copyError` oracles in
`Ctx` (the loop only consults `fs.existsSync` on the destination and the
success/failure of `fs.copyFileSync`).
-/

namespace Scaffold

/-- `rel.replace(/\\/g, '/')` (scaffold.mjs line 415): every backslash
character becomes a forward slash.  Implemented character-wise so that the
kernel can evaluate it on literals. -/
def normalize (s : String) : String :=
  ⟨s.data.map (fun c => if c = '\\' then '/' else c)⟩

/-- Split a character list on a separator character, keeping empty groups
(the semantics of `String.splitOn` for a single-character separator). -/
def splitOnChar (sep : Char) : List Char → List (List Char)
  | [] => [[]]
  | c :: rest =>
    match splitOnChar sep rest with
    | [] => [[]]
    | g :: gs => if c = sep then [] :: g :: gs else (c :: g) :: gs

/-- `path.basename(rel)` applied to a slash-normalized relative path with no
trailing separator (scaffold.mjs line 416): the part after the last `/`. -/
def basename (rel : String) : String :=
  ⟨(splitOnChar '/' rel.data).getLastD []⟩

/-- `s.startsWith(p)`, implemented structurally on the character lists. -/
def strStartsWith (s p : String) : Bool :=
  p.data.isPrefixOf s.data

/-- `isContentFile` (scaffold.mjs lines 337-340). -/
def isContentFile (rel : String) : Bool :=
  rel == "content.config.ts" || strStartsWith rel "content/" || strStartsWith rel "content\\"

/-- `isTailwindFile` (scaffold.mjs lines 342-345). -/
def isTailwindFile (rel : String) : Bool :=
  rel == "tailwind.config.ts" || rel == "tailwind.config.js" || rel == "tailwind.config.cjs"

/-- `isInfoFile` (scaffold.mjs line 347). -/
def isInfoFile (rel : String) : Bool :=
  basename rel == "INFO.md"

/-- `LOCK_NAME` (scaffold.mjs line 164). -/
def LOCK_NAME : String := ".scaffold-nuxt-4.lock"

/-- `ALWAYS_EXCLUDE` basename deny-list (scaffold.mjs lines 350-362). -/
def ALWAYS_EXCLUDE : List String :=
  ["package.json", "package-lock.json", "pnpm-lock.yaml", "yarn.lock", "bun.lockb",
   "scaffold.mjs", "_scaffold.mjs", "a.txt", LOCK_NAME, ".DS_Store", "Thumbs.db"]

/-- `DOC_EXCLUDE` basename list (scaffold.mjs lines 365-371). -/
def DOC_EXCLUDE : List String :=
  ["README.md", "LICENSE", "LICENSE.txt", "CHANGELOG.md", "CHANGES.md"]

/-- The `action` tag pushed into `actions` (scaffold.mjs lines 418-451):
`exclude-always`, `exclude-docs`, `exclude-info`, `exclude-feature`,
`skip-exists`, `add`. -/
inductive ActKind where
  | excludeAlways
  | excludeDocs
  | excludeInfo
  | excludeFeature
  | skipExists
  | add
deriving DecidableEq, BEq

/-- One entry of the `actions` array: `{rel, action, reason?}`. -/
structure Action where
  rel : String
  action : ActKind
  reason : Option String
deriving DecidableEq

/-- The inputs the classification/execution loop reads, other than the file
list itself.  `existsInTarget rel` abstracts `fs.existsSync(path.join(targetRoot, rel))`
(line 445) and `copyError rel` abstracts the outcome of
`fs.copyFileSync` for that file (line 455): `none` = success,
`some msg` = the caught exception's message. -/
structure Ctx where
  effectiveContent : Bool
  effectiveTailwind : Bool
  cleanInfo : Bool
  includeDocs : Bool
  dryRun : Bool
  listOnly : Bool
  existsInTarget : String → Bool
  copyError : String → Option String

/-- The rule chain of the loop body (scaffold.mjs lines 414-451), evaluated
top to bottom, first match wins: always-exclude, doc-exclude, info-exclude,
content feature gate, tailwind feature gate, existence skip, else add. -/
def classifyOne (ctx : Ctx) (relRaw : String) : Action :=
  if ALWAYS_EXCLUDE.contains (basename (normalize relRaw)) then
    ⟨normalize relRaw, .excludeAlways, some "utility"⟩
  else if !ctx.includeDocs && DOC_EXCLUDE.contains (basename (normalize relRaw)) then
    ⟨normalize relRaw, .excludeDocs, some "docs"⟩
  else if ctx.cleanInfo && isInfoFile (normalize relRaw) then
    ⟨normalize relRaw, .excludeInfo, some "clean"⟩
  else if isContentFile (normalize relRaw) && !ctx.effectiveContent then
    ⟨normalize relRaw, .excludeFeature, some "content-off"⟩
  else if isTailwindFile (normalize relRaw) && !ctx.effectiveTailwind then
    ⟨normalize relRaw, .excludeFeature, some "tailwind-off"⟩
  else if ctx.existsInTarget (normalize relRaw) then
    ⟨normalize relRaw, .skipExists, none⟩
  else
    ⟨normalize relRaw, .add, none⟩

/-- The reason string pushed into the `excluded` bucket for each exclusion
branch (scaffold.mjs lines 420, 425, 430, 435, 440), derived from the
action-level reason of the same branch. -/
def bucketReason : Option String → String
  | some "utility" => "utility"
  | some "docs" => "docs"
  | some "clean" => "info-clean"
  | some "content-off" => "content-disabled"
  | some "tailwind-off" => "tailwind-disabled"
  | _ => ""

/-- The result buckets built by the loop (scaffold.mjs lines 408-412), plus
`writes`: the destination relative paths for which `fs.copyFileSync`
actually ran and succeeded (line 455).  In dry-run / list mode no write and
no directory creation happens at all. -/
structure RunResult where
  actions : List Action
  added : List String
  skipped : List String
  excluded : List (String × String)
  errors : List (String × String)
  writes : List String
deriving DecidableEq

def RunResult.empty : RunResult := ⟨[], [], [], [], [], []⟩

def RunResult.append (a b : RunResult) : RunResult :=
  ⟨a.actions ++ b.actions, a.added ++ b.added, a.skipped ++ b.skipped,
   a.excluded ++ b.excluded, a.errors ++ b.errors, a.writes ++ b.writes⟩

/-- The bucket contributions of one already-classified file (the branch
bodies of scaffold.mjs lines 418-462).  The `add` branch copies — and on a
caught per-file exception records an error instead of aborting — only when
neither `dryRun` nor `listOnly` is set; in simulate/list mode it records the
file as added without touching the filesystem. -/
def stepAct (ctx : Ctx) (a : Action) : RunResult :=
  match a.action with
  | .excludeAlways => ⟨[a], [], [], [(a.rel, bucketReason a.reason)], [], []⟩
  | .excludeDocs => ⟨[a], [], [], [(a.rel, bucketReason a.reason)], [], []⟩
  | .excludeInfo => ⟨[a], [], [], [(a.rel, bucketReason a.reason)], [], []⟩
  | .excludeFeature => ⟨[a], [], [], [(a.rel, bucketReason a.reason)], [], []⟩
  | .skipExists => ⟨[a], [], [a.rel], [], [], []⟩
  | .add =>
      if ctx.dryRun || ctx.listOnly then
        ⟨[a], [a.rel], [], [], [], []⟩
      else
        match ctx.copyError a.rel with
        | none => ⟨[a], [a.rel], [], [], [], [a.rel]⟩
        | some e => ⟨[a], [], [], [], [(a.rel, e)], []⟩

/-- The effect of one iteration of the loop on the buckets: classify, then
contribute per the branch taken. -/
def stepOf (ctx : Ctx) (relRaw : String) : RunResult :=
  stepAct ctx (classifyOne ctx relRaw)

/-- The whole classification/execution pass over the enumerated file list
(scaffold.mjs lines 414-463), before the final sort of the buckets. -/
def runFiles (ctx : Ctx) : List String → RunResult
  | [] => RunResult.empty
  | f :: fs => (stepOf ctx f).append (runFiles ctx fs)

/-! ### Feature detection (scaffold.mjs lines 196-210)

The target manifest's `dependencies` / `devDependencies` are association
lists from package name to version string (the shape `JSON.parse` yields for
a well-formed `package.json`).  `{...(pkg.dependencies||{}), ...(pkg.devDependencies||{})}`
merges them with `devDependencies` winning on duplicate keys, and
`!!deps[k]` is JS truthiness of the looked-up value: for a string value this
is `value ≠ ""`. -/

structure Manifest where
  dependencies : List (String × String)
  devDependencies : List (String × String)

/-- Lookup in the spread-merged `deps` object: a key found in
`devDependencies` shadows the same key in `dependencies`. -/
def mergedDep (m : Manifest) (k : String) : Option String :=
  match m.devDependencies.lookup k with
  | some v => some v
  | none => m.dependencies.lookup k

/-- `!!deps[k]` (scaffold.mjs lines 197-198): truthiness of the merged
value; an absent key or an empty-string version is falsy. -/
def detectedDep (m : Manifest) (k : String) : Bool :=
  match mergedDep m k with
  | some v => v != ""
  | none => false

/-- `detectedContent` (scaffold.mjs line 197). -/
def detectedContent (m : Manifest) : Bool := detectedDep m "@nuxt/content"

/-- `detectedTailwind` (scaffold.mjs line 198). -/
def detectedTailwind (m : Manifest) : Bool := detectedDep m "tailwindcss"

/-- Modelled from the spec: "a feature is detected iff its signature
dependency key is present in the union of the target manifest's
dependencies and devDependencies, its value being irrelevant".  Used only to
compare the spec's words against `detectedDep`. -/
def specKeyPresent (m : Manifest) (k : String) : Bool :=
  (m.devDependencies.lookup k).isSome || (m.dependencies.lookup k).isSome

/-- The nested conditional computing `effectiveContent` / `effectiveTailwind`
(scaffold.mjs lines 200-210): `forceAll ? true : withX ? true : withoutX ?
false : detected`. -/
def effectiveSignal (forceAll withX withoutX detected : Bool) : Bool :=
  if forceAll then true
  else if withX then true
  else if withoutX then false
  else detected

/-! ### Flag validation (scaffold.mjs lines 139-147) -/

/-- The feature-related CLI flags. -/
structure CliFlags where
  all : Bool
  withContent : Bool
  withoutContent : Bool
  withTailwind : Bool
  withoutTailwind : Bool

/-- The only upfront mutual-exclusivity rejection the program performs
(scaffold.mjs lines 139-147): `--with-content` with `--without-content`, or
`--with-tailwind` with `--without-tailwind`.  `true` means the run aborts
with `EXIT.USAGE_ERROR` before doing anything else. -/
def mutualExclusionError (f : CliFlags) : Bool :=
  (f.withContent && f.withoutContent) || (f.withTailwind && f.withoutTailwind)

/-- Effective content signal for a flag record (scaffold.mjs lines 200-204). -/
def effectiveContentOf (f : CliFlags) (detected : Bool) : Bool :=
  effectiveSignal f.all f.withContent f.withoutContent detected

/-- Effective tailwind signal for a flag record (scaffold.mjs lines 206-210). -/
def effectiveTailwindOf (f : CliFlags) (detected : Bool) : Bool :=
  effectiveSignal f.all f.withTailwind f.withoutTailwind detected

/-! ### Optimized-clone fallback (scaffold.mjs lines 294-303)

`attemptClone` is abstracted by the directory listing each mode would
produce: `optimizedListing` is `fs.readdirSync` of the optimized clone's
working tree, `fullListing` that of a full clone. -/

structure CloneEnv where
  optimizedListing : List String
  fullListing : List String

/-- Which attempt produced the final `cloneDir`, its listing, and whether the
optimized attempt's temporary directory was discarded. -/
structure CloneResult where
  usedOptimized : Bool
  listing : List String
  discardedOptimizedTemp : Bool
deriving DecidableEq

/-- scaffold.mjs lines 295-302: clone with the requested mode; when the
optimized mode was used and the resulting tree has no entry other than
`.git`, remove the temporary directory and re-clone without optimization. -/
def resolveCloneDir (useOptimized : Bool) (env : CloneEnv) : CloneResult :=
  if useOptimized then
    if (env.optimizedListing.filter (fun x => x != ".git")).isEmpty then
      ⟨false, env.fullListing, true⟩
    else
      ⟨true, env.optimizedListing, false⟩
  else
    ⟨false, env.fullListing, false⟩

/-! ### Lock acquisition

scaffold.mjs (revision 1.0.1) lines 167-174: `fs.openSync(lockPath, 'wx')`
(which fails iff the lock file already exists), and on any failure an
immediate `ERROR` + `process.exit(EXIT.USAGE_ERROR)` — the owner pid stored
in an existing lock is never read.  The earlier revision 1.0.0
(src/unnamed/part_000 lines 871-894) instead reads the pid from an existing
lock, probes it with `process.kill(pid, 0)`, and recreates the lock when the
owner is dead. -/

inductive LockOutcome where
  | acquired
  | reclaimedAcquired
  | fatalError
deriving DecidableEq

/-- Lock acquisition of scaffold.mjs 1.0.1 (lines 167-174).  `lockExists`
abstracts whether the lock file is present (`'wx'` creation fails exactly
then); `ownerAlive` is whether the recorded owner process is running — the
1.0.1 code never consults it. -/
def acquireLock (lockExists : Bool) (_ownerAlive : Bool) : LockOutcome :=
  if lockExists then .fatalError else .acquired

/-- Lock acquisition of revision 1.0.0 (src/unnamed/part_000 lines 871-894):
on `EEXIST`, read the owner pid; if that process is alive, hard error;
otherwise remove the stale lock and create it again. -/
def acquireLockReclaim (lockExists : Bool) (ownerAlive : Bool) : LockOutcome :=
  if lockExists then
    if ownerAlive then .fatalError else .reclaimedAcquired
  else .acquired

/-! ### Template walk (scaffold.mjs lines 373-394)

The walk reads a directory tree and collects relative paths of all files,
skipping every entry (file or directory) named `.git` or `node_modules`.
Paths are modelled as component lists (`path.join` / `path.relative` only
concatenate and strip components here); the walk below emits the same set of
paths as the stack-based loop in the source. -/

inductive FsEntry where
  | file (name : String)
  | dir (name : String) (children : List FsEntry)

/-- Relative paths (as component lists) of all files reachable from the
given directory entries, pruning entries named `.git` or `node_modules`
exactly as the `continue` on scaffold.mjs line 385 does. -/
def walk : List FsEntry → List (List String)
  | [] => []
  | .file name :: rest =>
      if name == ".git" || name == "node_modules" then walk rest
      else [name] :: walk rest
  | .dir name children :: rest =>
      if name == ".git" || name == "node_modules" then walk rest
      else (walk children).map (fun p => name :: p) ++ walk rest

/-! ### Concrete inputs used by witnesses and counterexamples -/

/-- A run with no flags set and both features off (no matching dependency),
against a target with no colliding files; copies always succeed. -/
def ctxNoFeatures : Ctx :=
  ⟨false, false, false, false, false, false, (fun _ => false), (fun _ => none)⟩

/-- Both features forced on, default doc handling, target already contains
`README.md`. -/
def ctxReadmeExists : Ctx :=
  ⟨true, true, false, false, false, false, (fun r => r == "README.md"), (fun _ => none)⟩

/-- Both features on, target already contains `app.vue`. -/
def ctxAppVueExists : Ctx :=
  ⟨true, true, false, false, false, false, (fun r => r == "app.vue"), (fun _ => none)⟩

/-- Dry-run context with both features on and an empty target. -/
def ctxDryRun : Ctx :=
  ⟨true, true, false, false, true, false, (fun _ => false), (fun _ => none)⟩

/-- The four-file template of the spec's concrete scenario. -/
def scenarioFiles : List String :=
  ["content/index.md", "tailwind.config.ts", "package.json", "README.md"]

/-- A manifest whose `dependencies` carry the key `@nuxt/content` with the
(valid JSON, falsy-in-JS) version string `""`. -/
def manifestEmptyVersion : Manifest := ⟨[("@nuxt/content", "")], []⟩

/-- `--all --without-content` with no other feature flags. -/
def flagsAllWithoutContent : CliFlags := ⟨true, false, true, false, false⟩

/-- A clone environment whose optimized attempt materializes only the
version-control metadata directory. -/
def envEmptyOptimized : CloneEnv := ⟨[".git"], ["templates", "README.md", "scaffold.mjs"]⟩

/-- A small template tree containing a pruned `.git` directory. -/
def sampleTree : List FsEntry :=
  [.dir "app" [.file "app.vue"], .dir ".git" [.file "config"], .file "README.md"]

/-! ## Helper lemmas -/

/-- Every branch of the rule chain tags the action with the slash-normalized
relative path of the file it classifies. -/
theorem classifyOne_rel (ctx : Ctx) (relRaw : String) :
    (classifyOne ctx relRaw).rel = normalize relRaw := by
  unfold classifyOne
  repeat' split
  all_goals rfl

/-- Each loop iteration contributes exactly one action: the classification
of its file. -/
theorem stepAct_actions (ctx : Ctx) (a : Action) :
    (stepAct ctx a).actions = [a] := by
  unfold stepAct
  repeat' split
  all_goals rfl

/-- Each loop iteration contributes exactly one action: the classification
of its file. -/
theorem stepOf_actions (ctx : Ctx) (relRaw : String) :
    (stepOf ctx relRaw).actions = [classifyOne ctx relRaw] :=
  stepAct_actions ctx (classifyOne ctx relRaw)

/-- A file classified `add` passed the existence check: its destination was
absent from the target. -/
theorem classifyOne_add_not_exists (ctx : Ctx) (relRaw : String)
    (h : (classifyOne ctx relRaw).action = ActKind.add) :
    ctx.existsInTarget (normalize relRaw) = false := by
  unfold classifyOne at h
  repeat' split at h
  all_goals simp_all

/-- An action other than `add` contributes no filesystem write. -/
theorem stepAct_writes_of_not_add (ctx : Ctx) (a : Action)
    (h : a.action ≠ ActKind.add) :
    (stepAct ctx a).writes = [] := by
  unfold stepAct
  repeat' split
  all_goals simp_all

/-- When the destination exists, the `add` outcome is impossible. -/
theorem classifyOne_exists_not_add (ctx : Ctx) (relRaw : String)
    (h : ctx.existsInTarget (normalize relRaw) = true) :
    (classifyOne ctx relRaw).action ≠ ActKind.add := by
  intro hadd
  have := classifyOne_add_not_exists ctx relRaw hadd
  simp [h] at this

/-! ## Claim theorems -/

/-- C2: the classification pass produces exactly one Action per enumerated
template file — no duplicates, no omissions — and the list of `Action.file`
values is exactly the input file list under the slash-normalized identity of
`TemplateFile`s (so in particular the two multisets are equal). -/
theorem c2_coverage (ctx : Ctx) (files : List String) :
    (runFiles ctx files).actions.length = files.length ∧
    (runFiles ctx files).actions.map Action.rel = files.map normalize := by
  induction files with
  | nil => exact ⟨rfl, rfl⟩
  | cons f fs ih =>
      refine ⟨?_, ?_⟩ <;>
        simp [runFiles, RunResult.append, stepOf_actions, classifyOne_rel, ih.1, ih.2]

/-- C3: the rule chain is evaluated first-match-wins, with the
always-exclude rule first: whenever the (normalized) basename of a file is
in `ALWAYS_EXCLUDE`, the file is classified `exclude-always` with reason
`utility`, for every context — in particular even when the file also matches
a feature-gate pattern whose effective signal is false. -/
theorem c3_always_exclude_wins (ctx : Ctx) (relRaw : String)
    (h : ALWAYS_EXCLUDE.contains (basename (normalize relRaw)) = true) :
    classifyOne ctx relRaw = ⟨normalize relRaw, ActKind.excludeAlways, some "utility"⟩ := by
  have h' : basename (normalize relRaw) ∈ ALWAYS_EXCLUDE := by simpa using h
  unfold classifyOne
  simp [h']

/-- Witness for C3 at `content/package.json`, a file matching both the
always-exclude basename list and the content feature pattern, in a context
where the content signal is false. -/
theorem c3_always_exclude_wins_witness :
    ALWAYS_EXCLUDE.contains (basename (normalize "content/package.json")) = true ∧
    isContentFile (normalize "content/package.json") = true ∧
    ctxNoFeatures.effectiveContent = false ∧
    classifyOne ctxNoFeatures "content/package.json" =
      ⟨normalize "content/package.json", ActKind.excludeAlways, some "utility"⟩ :=
  ⟨by decide, by decide, rfl, c3_always_exclude_wins ctxNoFeatures "content/package.json" (by decide)⟩

/-- Counterexample to C1 as stated: `README.md` already exists in the target
(and both feature signals are even forced on), yet its outcome is
`exclude-docs`, not `skip-exists` — an existing file's outcome is not
"always `skip-exists`", because the exclusion rules run before the
existence check. -/
theorem c1_counterexample :
    ctxReadmeExists.existsInTarget (normalize "README.md") = true ∧
    (classifyOne ctxReadmeExists "README.md").action = ActKind.excludeDocs ∧
    (classifyOne ctxReadmeExists "README.md").action ≠ ActKind.skipExists := by
  decide

/-- C1 (amended): for every template file whose normalized relative path
already exists under the target, the pass never writes to that path and the
outcome is never `add`; the outcome is `skip-exists` when no exclusion rule
matched first, and one of the exclusion outcomes otherwise. -/
theorem c1_no_overwrite (ctx : Ctx) (relRaw : String)
    (h : ctx.existsInTarget (normalize relRaw) = true) :
    (classifyOne ctx relRaw).action ≠ ActKind.add ∧
    (stepOf ctx relRaw).writes = [] ∧
    ((classifyOne ctx relRaw).action = ActKind.skipExists ∨
      (classifyOne ctx relRaw).action = ActKind.excludeAlways ∨
      (classifyOne ctx relRaw).action = ActKind.excludeDocs ∨
      (classifyOne ctx relRaw).action = ActKind.excludeInfo ∨
      (classifyOne ctx relRaw).action = ActKind.excludeFeature) := by
  have hne := classifyOne_exists_not_add ctx relRaw h
  refine ⟨hne, stepAct_writes_of_not_add ctx _ hne, ?_⟩
  cases hact : (classifyOne ctx relRaw).action <;> simp_all

/-- Witness for C1 (amended) at `app.vue`, present in the target and matched
by no exclusion rule: outcome `skip-exists`, no write. -/
theorem c1_no_overwrite_witness :
    ctxAppVueExists.existsInTarget (normalize "app.vue") = true ∧
    ((classifyOne ctxAppVueExists "app.vue").action ≠ ActKind.add ∧
      (stepOf ctxAppVueExists "app.vue").writes = [] ∧
      ((classifyOne ctxAppVueExists "app.vue").action = ActKind.skipExists ∨
        (classifyOne ctxAppVueExists "app.vue").action = ActKind.excludeAlways ∨
        (classifyOne ctxAppVueExists "app.vue").action = ActKind.excludeDocs ∨
        (classifyOne ctxAppVueExists "app.vue").action = ActKind.excludeInfo ∨
        (classifyOne ctxAppVueExists "app.vue").action = ActKind.excludeFeature)) :=
  ⟨by decide, c1_no_overwrite ctxAppVueExists "app.vue" (by decide)⟩

/-- C8: on the template `content/index.md`, `tailwind.config.ts`,
`package.json`, `README.md`, with an empty target, no matching dependencies
and no flags, classification excludes the four files with reasons
`content-disabled`, `tailwind-disabled`, `utility` and `docs` respectively,
and produces zero adds (and zero writes, skips and errors). -/
theorem c8_concrete_scenario :
    runFiles ctxNoFeatures scenarioFiles =
      ⟨[⟨"content/index.md", .excludeFeature, some "content-off"⟩,
        ⟨"tailwind.config.ts", .excludeFeature, some "tailwind-off"⟩,
        ⟨"package.json", .excludeAlways, some "utility"⟩,
        ⟨"README.md", .excludeDocs, some "docs"⟩],
       [], [],
       [("content/index.md", "content-disabled"),
        ("tailwind.config.ts", "tailwind-disabled"),
        ("package.json", "utility"),
        ("README.md", "docs")],
       [], []⟩ := by
  decide

/-- In simulate/list mode a step never writes. -/
theorem stepAct_dry_writes (ctx : Ctx) (a : Action)
    (h : (ctx.dryRun || ctx.listOnly) = true) :
    (stepAct ctx a).writes = [] := by
  unfold stepAct
  repeat' split
  all_goals simp_all

/-- In simulate/list mode a step records exactly the `add`-classified file
as added. -/
theorem stepOf_dry_added (ctx : Ctx) (relRaw : String)
    (h : (ctx.dryRun || ctx.listOnly) = true) :
    (stepOf ctx relRaw).added =
      if (classifyOne ctx relRaw).action = ActKind.add then [normalize relRaw] else [] := by
  unfold stepOf stepAct
  cases hact : (classifyOne ctx relRaw).action <;> simp_all [classifyOne_rel]

/-- C7: in simulate (dry-run) and list-only modes the classification pass
performs no filesystem write at all — the target's contents are untouched —
while every `add`-classified file is still recorded as added (and nothing
else is). -/
theorem c7_dry_run_no_writes (ctx : Ctx) (files : List String)
    (h : (ctx.dryRun || ctx.listOnly) = true) :
    (runFiles ctx files).writes = [] ∧
    (runFiles ctx files).added =
      (files.filter (fun f => decide ((classifyOne ctx f).action = ActKind.add))).map normalize := by
  induction files with
  | nil => exact ⟨rfl, rfl⟩
  | cons f fs ih =>
      constructor
      · simpa [runFiles, RunResult.append, stepOf, stepAct_dry_writes ctx _ h] using ih.1
      · by_cases hp : (classifyOne ctx f).action = ActKind.add <;>
          simp [runFiles, RunResult.append, stepOf_dry_added ctx f h, hp,
            List.filter_cons, ih.2]

/-- Witness for C7 in dry-run mode on a one-file template whose file is
classified `add`. -/
theorem c7_dry_run_no_writes_witness :
    (ctxDryRun.dryRun || ctxDryRun.listOnly) = true ∧
    ((runFiles ctxDryRun ["app.vue"]).writes = [] ∧
      (runFiles ctxDryRun ["app.vue"]).added =
        (["app.vue"].filter
          (fun f => decide ((classifyOne ctxDryRun f).action = ActKind.add))).map normalize) :=
  ⟨by decide, c7_dry_run_no_writes ctxDryRun ["app.vue"] (by decide)⟩

/-- Counterexample to C4 as stated: a manifest whose `dependencies` object
holds the key `@nuxt/content` with the falsy version string `""`.  The key
is present in the union of the two dependency maps, yet `!!deps['@nuxt/content']`
is false: the value is not irrelevant. -/
theorem c4_counterexample :
    specKeyPresent manifestEmptyVersion "@nuxt/content" = true ∧
    detectedContent manifestEmptyVersion = false := by
  decide

/-- C4 (amended): each feature's effective signal follows the strict
precedence force-all > with-X > without-X > auto-detected, and
auto-detection holds iff the signature dependency key is present in the
merge of `dependencies` and `devDependencies` with a truthy (non-empty)
version string. -/
theorem c4_signal_precedence :
    (∀ m k, detectedDep m k = true ↔ ∃ v, mergedDep m k = some v ∧ v ≠ "") ∧
    (∀ w wo d, effectiveSignal true w wo d = true) ∧
    (∀ wo d, effectiveSignal false true wo d = true) ∧
    (∀ d, effectiveSignal false false true d = false) ∧
    (∀ d, effectiveSignal false false false d = d) := by
  refine ⟨?_, by decide, by decide, by decide, by decide⟩
  intro m k
  unfold detectedDep
  cases h : mergedDep m k <;> simp [h]

/-- Counterexample to C5 as stated: `--all --without-content` passes the
only upfront mutual-exclusivity rejection the program performs, and the run
proceeds with force-all silently winning (effective content signal true
whatever was auto-detected). -/
theorem c5_counterexample :
    mutualExclusionError flagsAllWithoutContent = false ∧
    effectiveContentOf flagsAllWithoutContent false = true ∧
    effectiveContentOf flagsAllWithoutContent true = true := by
  decide

/-- C5 (amended): the program rejects upfront exactly the combinations
`--with-content --without-content` and `--with-tailwind --without-tailwind`;
`--all` together with `--without-X` is accepted and force-all silently wins
(both effective signals are true), and independently force-all outranks
plain auto-detection. -/
theorem c5_all_not_rejected :
    (∀ f : CliFlags,
      mutualExclusionError f = true ↔
        (f.withContent = true ∧ f.withoutContent = true) ∨
        (f.withTailwind = true ∧ f.withoutTailwind = true)) ∧
    (∀ woC woT d : Bool,
      mutualExclusionError ⟨true, false, woC, false, woT⟩ = false ∧
      effectiveContentOf ⟨true, false, woC, false, woT⟩ d = true ∧
      effectiveTailwindOf ⟨true, false, woC, false, woT⟩ d = true) ∧
    (∀ d : Bool, effectiveSignal true false false d = true) := by
  refine ⟨?_, by decide, by decide⟩
  intro f
  simp [mutualExclusionError]

/-- C6: when the optimized clone's working tree has zero entries other than
the version-control metadata directory, the temporary directory is
discarded and a full clone is attempted, and the full clone's tree is the
one handed on — the empty optimized tree never reaches classification. -/
theorem c6_optimized_fallback (env : CloneEnv)
    (h : (env.optimizedListing.filter (fun x => x != ".git")).isEmpty = true) :
    resolveCloneDir true env =
      ⟨false, env.fullListing, true⟩ := by
  unfold resolveCloneDir
  simp [h]

/-- Witness for C6 on an optimized clone that materialized only `.git`. -/
theorem c6_optimized_fallback_witness :
    (envEmptyOptimized.optimizedListing.filter (fun x => x != ".git")).isEmpty = true ∧
    resolveCloneDir true envEmptyOptimized =
      ⟨false, envEmptyOptimized.fullListing, true⟩ :=
  ⟨by decide, c6_optimized_fallback envEmptyOptimized (by decide)⟩

/-- Counterexample to C9 as stated: in scaffold.mjs (revision 1.0.1) a
pre-existing lock whose owner process is dead still aborts with the hard
concurrency error — the stale lock is not reclaimed and the run does not
proceed. -/
theorem c9_counterexample :
    acquireLock true false = LockOutcome.fatalError ∧
    acquireLock true false ≠ LockOutcome.acquired ∧
    acquireLock true false ≠ LockOutcome.reclaimedAcquired := by
  decide

/-- C9 (amended): in the shipped revision 1.0.1 any pre-existing lock file
causes the hard concurrency error regardless of whether the owner process
is alive (so a live holder errors, as claimed, but a stale lock is never
reclaimed and must be removed manually); the automatic stale-lock
reclamation exists only in the earlier revision 1.0.0's acquisition
(`acquireLockReclaim`). -/
theorem c9_lock_never_reclaimed :
    ∀ ownerAlive : Bool,
      acquireLock true ownerAlive = LockOutcome.fatalError ∧
      acquireLock false ownerAlive = LockOutcome.acquired ∧
      acquireLockReclaim true true = LockOutcome.fatalError ∧
      acquireLockReclaim true false = LockOutcome.reclaimedAcquired := by
  decide

/-- C10: the template walk prunes `.git` and `node_modules` subtrees (and
entries of those names) entirely: no emitted relative path has a component
named `.git` or `node_modules`, so no file under such a directory is ever
classified or copied. -/
theorem c10_walk_prunes (entries : List FsEntry) :
    ∀ p ∈ walk entries, ".git" ∉ p ∧ "node_modules" ∉ p := by
  induction entries using walk.induct with
  | case1 =>
      intro p hp
      simp [walk] at hp
  | case2 name rest hcond ih =>
      intro p hp
      rw [walk, if_pos hcond] at hp
      exact ih p hp
  | case3 name rest hcond ih =>
      intro p hp
      rw [walk, if_neg hcond] at hp
      simp only [Bool.or_eq_true, beq_iff_eq, not_or] at hcond
      rcases List.mem_cons.mp hp with h1 | h2
      · subst h1
        constructor <;> simp <;> intro he <;> simp [he] at hcond
      · exact ih p h2
  | case4 name children rest hcond ih =>
      intro p hp
      rw [walk, if_pos hcond] at hp
      exact ih p hp
  | case5 name children rest hcond ih1 ih2 =>
      intro p hp
      rw [walk, if_neg hcond] at hp
      simp only [Bool.or_eq_true, beq_iff_eq, not_or] at hcond
      rcases List.mem_append.mp hp with h1 | h2
      · rcases List.mem_map.mp h1 with ⟨q, hq, rfl⟩
        have hc := ih1 q hq
        constructor <;> rw [List.mem_cons, not_or] <;>
          exact ⟨by intro he; simp [he.symm] at hcond, by simp [hc.1, hc.2]⟩
      · exact ih2 p h2

/-- Witness for C10 on a small tree containing a `.git` directory: the
emitted path `app/app.vue` has no pruned component (and, concretely, the
walk emits only the two non-pruned files). -/
theorem c10_walk_prunes_witness :
    (["app", "app.vue"] ∈ walk sampleTree) ∧
    ".git" ∉ ["app", "app.vue"] ∧ "node_modules" ∉ ["app", "app.vue"] :=
  ⟨by simp [sampleTree, walk],
   c10_walk_prunes sampleTree ["app", "app.vue"] (by simp [sampleTree, walk])⟩

end Scaffold
